import Mathlib

/-!
Verification of the triotp library (supervisor, mailbox registry, generic
server) against its natural-language specification.

The Python sources are shallowly embedded: registries become association
lists with the insertion/overwrite behaviour of Python dicts, the retry
decision of the supervisor becomes a pure function on its captured state,
exception trees become an inductive type, and the generic-server loop
becomes explicit state passing over a list of incoming messages.
-/

namespace Triotp

/-- Python exception values relevant to the library.  The constructors mirror
the exception classes raised by the code: trio.Cancelled (a BaseException that
is NOT a subclass of Exception), trio.TooSlowError (a direct subclass of
Exception, not of the builtin TimeoutError), the builtin TimeoutError,
GenServerExited, the mailbox registry errors, UnboundLocalError,
NotImplementedError, TypeError, RuntimeError and arbitrary user exceptions. -/
inductive PyExc
  | cancelled (id : Nat)
  | tooSlowError
  | timeoutError
  | genServerExited
  | mailboxDoesNotExist (mid : String)
  | nameAlreadyExist (name : String)
  | nameDoesNotExist (name : String)
  | unboundLocalError (var : String)
  | notImplementedError (what : String)
  | typeError (what : String)
  | runtimeError (msg : String)
  | userError (tag : Nat)
  deriving DecidableEq

/-- Whether the exception is a trio.Cancelled instance. -/
def isCancelled : PyExc → Bool
  | .cancelled _ => true
  | _ => false

/-- Whether the exception class derives from the builtin Exception class.
trio.Cancelled derives directly from BaseException, every other class in our
taxonomy derives from Exception. -/
def isExceptionClass : PyExc → Bool
  | .cancelled _ => false
  | _ => true

/-- Whether the exception is an instance of the builtin TimeoutError class.
trio defines TooSlowError as a direct subclass of Exception, so a
TooSlowError instance is not an instance of TimeoutError. -/
def isTimeoutErrorClass : PyExc → Bool
  | .timeoutError => true
  | _ => false

/-- The Python repr of the exception.  trio.Cancelled takes no constructor
arguments, so every Cancelled instance has the same repr; this constancy is
what makes the dedup step of defer_to_cancelled collapse all cancellations. -/
def reprExc : PyExc → String
  | .cancelled _ => "Cancelled()"
  | .tooSlowError => "TooSlowError()"
  | .timeoutError => "TimeoutError()"
  | .genServerExited => "GenServerExited()"
  | .mailboxDoesNotExist m => "MailboxDoesNotExist: " ++ m
  | .nameAlreadyExist n => "NameAlreadyExist: " ++ n
  | .nameDoesNotExist n => "NameDoesNotExist: " ++ n
  | .unboundLocalError v => "UnboundLocalError: " ++ v
  | .notImplementedError w => "NotImplementedError: " ++ w
  | .typeError w => "TypeError: " ++ w
  | .runtimeError m => "RuntimeError: " ++ m
  | .userError t => "UserError: " ++ toString t

/-- A Python value travelling through mailboxes and channels: either plain
data or an exception instance used as a value. -/
inductive Value
  | data (n : Nat)
  | exc (e : PyExc)
  deriving DecidableEq

/-- Python isinstance(val, Exception) on a transported value. -/
def isinstanceException : Value → Bool
  | .data _ => false
  | .exc e => isExceptionClass e

/-! ### Association lists modelling Python dicts

Python dict assignment replaces the value of an existing key in place and
appends a fresh key at the end; dict.pop removes the binding of a key.  The
operations below implement exactly that on association lists. -/

/-- Dict lookup: first binding of the key, if any. -/
def lookupA {α : Type} : List (String × α) → String → Option α
  | [], _ => none
  | p :: ps, k => if p.1 = k then some p.2 else lookupA ps k

/-- Dict assignment: replace the first binding of the key, or append a new
binding at the end. -/
def insertA {α : Type} : List (String × α) → String → α → List (String × α)
  | [], k, v => [(k, v)]
  | p :: ps, k, v => if p.1 = k then (k, v) :: ps else p :: insertA ps k v

/-- Dict pop: remove the first binding of the key. -/
def eraseA {α : Type} : List (String × α) → String → List (String × α)
  | [], _ => []
  | p :: ps, k => if p.1 = k then ps else p :: eraseA ps k

/-! ### Mailbox registry (src/triotp/mailbox.py)

The context holds two dicts: mailbox id to channel pair, and name to mailbox
id.  Channels are irrelevant to the registry claims, so a channel pair is
represented by an abstract token. -/

/-- The two per-node registries from mailbox.py.  mailboxes maps a mailbox id
to its channel pair (modelled as a token), names maps a registered name to a
mailbox id. -/
structure MailboxEnv where
  mailboxes : List (String × Nat)
  names : List (String × String)
  deriving DecidableEq

/-- mailbox.create: insert a fresh uuid4 id with a new channel pair.  The
generated uuid is passed as the argument mid; the code performs no freshness
check, a dict assignment is done unconditionally. -/
def create (env : MailboxEnv) (mid : String) : MailboxEnv :=
  { env with mailboxes := insertA env.mailboxes mid 0 }

/-- mailbox.register: raise MailboxDoesNotExist when the mailbox id is not
registered, then raise NameAlreadyExist when the name is taken, otherwise
bind the name.  The returned pair is (raised exception, registries after the
call). -/
def register (env : MailboxEnv) (mid : String) (name : String) :
    Option PyExc × MailboxEnv :=
  match lookupA env.mailboxes mid with
  | none => (some (.mailboxDoesNotExist mid), env)
  | some _ =>
    match lookupA env.names name with
    | some _ => (some (.nameAlreadyExist name), env)
    | none => (none, { env with names := insertA env.names name mid })

/-- mailbox.unregister: raise NameDoesNotExist when the name is absent,
otherwise pop it. -/
def unregister (env : MailboxEnv) (name : String) : Option PyExc × MailboxEnv :=
  match lookupA env.names name with
  | none => (some (.nameDoesNotExist name), env)
  | some _ => (none, { env with names := eraseA env.names name })

/-- mailbox.unregister_all: pop every name whose value is the given mailbox
id (the code iterates over a snapshot of the items and pops the matching
names). -/
def unregister_all (env : MailboxEnv) (mid : String) : MailboxEnv :=
  { env with names := env.names.filter (fun p => decide (¬ p.2 = mid)) }

/-- mailbox.destroy: raise MailboxDoesNotExist when the mailbox id is absent;
otherwise unregister every name of the mailbox first, then pop the mailbox
entry (and close both channel halves, irrelevant here). -/
def destroy (env : MailboxEnv) (mid : String) : Option PyExc × MailboxEnv :=
  match lookupA env.mailboxes mid with
  | none => (some (.mailboxDoesNotExist mid), env)
  | some _ =>
    let env1 := unregister_all env mid
    (none, { env1 with mailboxes := eraseA env1.mailboxes mid })

/-- What happened on the receive channel while mailbox.receive was waiting:
either a message was delivered before any deadline, or the deadline of
trio.fail_after expired first. -/
inductive RecvOutcome
  | delivered (v : Value)
  | expired
  deriving DecidableEq

/-- Result of a mailbox.receive call. -/
inductive ReceiveRes
  | returns (v : Value)
  | raises (e : PyExc)
  | blocks
  deriving DecidableEq

/-- mailbox.receive: raise MailboxDoesNotExist when the mailbox id is absent.
With a timeout, a delivered message is returned; on expiry trio.fail_after
raises trio.TooSlowError, which is reraised when on_timeout is absent and
otherwise replaced by the value of the on_timeout callback.  Without a
timeout the call waits for a message indefinitely. -/
def receiveM (env : MailboxEnv) (mid : String) (timeout : Option ℚ)
    (onTimeout : Option Value) (event : RecvOutcome) : ReceiveRes :=
  match lookupA env.mailboxes mid with
  | none => .raises (.mailboxDoesNotExist mid)
  | some _ =>
    match timeout with
    | some _ =>
      match event with
      | .delivered v => .returns v
      | .expired =>
        match onTimeout with
        | none => .raises .tooSlowError
        | some r => .returns r
    | none =>
      match event with
      | .delivered v => .returns v
      | .expired => .blocks

/-! ### Supervisor retry strategy (src/triotp/supervisor.py)

The class _retry_strategy captures the restart strategy, the intensity
options and a deque of failure timestamps; its call method is invoked by
tenacity with the outcome of the last attempt and decides whether to retry.
Timestamps (trio.current_time) are modelled as rationals. -/

/-- supervisor.restart_strategy. -/
inductive RestartStrategy
  | permanent
  | transient
  | temporary
  deriving DecidableEq

/-- The state captured by a _retry_strategy instance: the strategy of the
child spec, the intensity options, and the deque of failure timestamps
(front of the list = left of the deque = oldest). -/
structure RetryState where
  restart : RestartStrategy
  max_restarts : Nat
  max_seconds : ℚ
  failure_times : List ℚ
  deriving DecidableEq

/-- The outcome of an attempt as seen by tenacity: either the task returned,
or it raised.  tenacity captures any BaseException of the attempt (including
trio.Cancelled) in the outcome future, and the failed flag of the future
holds exactly when an exception was captured. -/
inductive Outcome
  | ok
  | raised (e : PyExc)
  deriving DecidableEq

/-- tenacity Future.failed: an exception was captured. -/
def Outcome.failed : Outcome → Bool
  | .ok => false
  | .raised _ => true

/-- The intensity-budget part of _retry_strategy.__call__: append now to the
failure deque; allow the restart when the deque length stays within
max_restarts; otherwise pop the oldest timestamp and allow the restart iff
the overflow event is older than the window. -/
def budgetStep (s : RetryState) (now : ℚ) : Bool × RetryState :=
  let ft := s.failure_times ++ [now]
  if ft.length ≤ s.max_restarts then (true, { s with failure_times := ft })
  else
    match ft with
    | [] => (false, s)
    | oldest :: rest =>
      (decide (now - oldest ≥ s.max_seconds), { s with failure_times := rest })

/-- _retry_strategy.__call__: the strategy gate runs first (permanent falls
through, transient refuses only when the outcome did not fail, temporary
always refuses), then the intensity budget decides. -/
def retryCall (s : RetryState) (outcome : Outcome) (now : ℚ) :
    Bool × RetryState :=
  match s.restart with
  | .permanent => budgetStep s now
  | .transient => if !outcome.failed then (false, s) else budgetStep s now
  | .temporary => (false, s)

/-! ### defer_to_cancelled (src/triotp/supervisor.py, lines 200-248)

A BaseExceptionGroup is a tree whose leaves are exceptions; the context
manager walks the tree with an explicit stack, raises the root group at the
first non-privileged leaf, dedups privileged leaves by repr, and finally
either reraises the root group or exactly one privileged exception. -/

/-- An aggregated exception tree: a leaf exception or a BaseExceptionGroup
with its list of component exceptions. -/
inductive ExcTree
  | leaf (e : PyExc)
  | group (children : List ExcTree)

mutual

/-- The leaf exceptions of a tree, left to right. -/
def leavesT : ExcTree → List PyExc
  | .leaf e => [e]
  | .group cs => leavesList cs

/-- The leaf exceptions of a list of trees. -/
def leavesList : List ExcTree → List PyExc
  | [] => []
  | t :: ts => leavesT t ++ leavesList ts

end

mutual

/-- Size of a tree, for the termination measure of the stack traversal. -/
def sizeT : ExcTree → Nat
  | .leaf _ => 1
  | .group cs => 2 + sizeL cs

/-- Size of a list of trees. -/
def sizeL : List ExcTree → Nat
  | [] => 0
  | t :: ts => sizeT t + sizeL ts

end

/-- Size of the traversal state: the group currently being iterated plus the
stack of pending groups. -/
def sizeStack : List (List ExcTree) → Nat
  | [] => 0
  | l :: ls => 1 + sizeL l + sizeStack ls

/-- The leaf exceptions still to be visited by the traversal state. -/
def leavesStack : List (List ExcTree) → List PyExc
  | [] => []
  | l :: ls => leavesList l ++ leavesStack ls

/-- The while loop of defer_to_cancelled: pop a group from the stack and walk
its exceptions; push nested groups onto the stack; at a non-privileged leaf
reraise the root group at once (propagate is true, modelled as error);
record a privileged leaf in excs_by_repr under its repr (dict assignment, so
a later leaf with the same repr overwrites the stored instance).  The head
list is the group being iterated, the tail is the pending stack with its top
first. -/
def collectCancelled : List (List ExcTree) → List (String × PyExc) →
    Except Unit (List (String × PyExc))
  | [], acc => .ok acc
  | [] :: stack, acc => collectCancelled stack acc
  | (.leaf e :: rest) :: stack, acc =>
    if isCancelled e then
      collectCancelled (rest :: stack) (insertA acc (reprExc e) e)
    else
      .error ()
  | (.group cs :: rest) :: stack, acc =>
    collectCancelled (rest :: cs :: stack) acc
  termination_by stack _ => sizeStack stack
  decreasing_by
    all_goals simp [sizeStack, sizeL, sizeT]
    all_goals omega

/-- What defer_to_cancelled does with a caught BaseExceptionGroup. -/
inductive DeferResult
  | propagateRoot
  | raiseOne (e : PyExc)
  | unreachableError
  deriving DecidableEq

/-- defer_to_cancelled on a caught root group with the given component list:
walk the tree; if a non-privileged leaf exists, the root group is reraised.
Otherwise the collected instances are grouped by privileged-type priority
(there is a single privileged type, trio.Cancelled, so the priority-0 list is
the collected instances that are Cancelled); with strict mode, more than one
distinct instance reraises the root group, exactly one is raised directly.
An empty collection would make min() fail on an empty dict, which cannot
happen for a nonempty exception group. -/
def deferToCancelled (rootChildren : List ExcTree) : DeferResult :=
  match collectCancelled [rootChildren] [] with
  | .error _ => .propagateRoot
  | .ok byRepr =>
    match (byRepr.map Prod.snd).filter isCancelled with
    | [] => .unreachableError
    | [e] => .raiseOne e
    | _ :: _ :: _ => .propagateRoot

/-! ### Generic server (src/triotp/gen_server.py)

The loop _loop opens a mailbox, calls the user init callback, then processes
incoming messages by shape (call, cast, info), dispatching to the optional
user handlers.  Handlers return one of the outcome variants together with the
new state, or raise. -/

/-- A message in the mailbox of a generic server: _CallMessage (its private
reply channel is tracked separately, by handleCallSend), _CastMessage, or a
raw info message. -/
inductive Message
  | call (payload : Value)
  | cast (payload : Value)
  | info (v : Value)

/-- The Python value returned by a user handler: one of the documented shapes
(Reply(payload), new_state), (NoReply(), new_state), (Stop(reason),
new_state), or anything else (which the dispatcher rejects with TypeError). -/
inductive CallbackReturn (St : Type)
  | reply (payload : Value) (newState : St)
  | noReply (newState : St)
  | stop (reason : Option PyExc) (newState : St)
  | invalid

/-- How the loop continues after one message: _Loop(yes=True),
_Loop(yes=False) or _Raise(exc). -/
inductive Continuation
  | loopTrue
  | loopFalse
  | raiseExc (e : PyExc)

/-- A generic-server callback module: the required init callback and the
optional handlers, looked up with getattr.  A handler either returns a
CallbackReturn or raises.  hasTerminate records whether the module defines a
terminate callback. -/
structure GSModule (St : Type) where
  init : Except PyExc St
  handleCall : Option (Value → St → Except PyExc (CallbackReturn St))
  handleCast : Option (Value → St → Except PyExc (CallbackReturn St))
  handleInfo : Option (Value → St → Except PyExc (CallbackReturn St))
  hasTerminate : Bool

/-- _handle_call: fail with NotImplementedError when the module has no
handle_call; otherwise run the handler and interpret its result.  Reply sends
the payload back and loops; NoReply loops; Stop sends GenServerExited() back
and then raises the reason or ends the loop; any other result is a
TypeError. -/
def dispatchCall {St : Type} (m : GSModule St) (payload : Value) (st : St) :
    Except PyExc (Continuation × St) :=
  match m.handleCall with
  | none => .error (.notImplementedError "handle_call")
  | some h =>
    match h payload st with
    | .error e => .error e
    | .ok (.reply _ st1) => .ok (.loopTrue, st1)
    | .ok (.noReply st1) => .ok (.loopTrue, st1)
    | .ok (.stop (some reason) st1) => .ok (.raiseExc reason, st1)
    | .ok (.stop none st1) => .ok (.loopFalse, st1)
    | .ok .invalid => .error (.typeError "handle_call did not return a valid value")

/-- _handle_cast: as _handle_call but a Reply result is not a valid shape and
no reply channel exists. -/
def dispatchCast {St : Type} (m : GSModule St) (payload : Value) (st : St) :
    Except PyExc (Continuation × St) :=
  match m.handleCast with
  | none => .error (.notImplementedError "handle_cast")
  | some h =>
    match h payload st with
    | .error e => .error e
    | .ok (.noReply st1) => .ok (.loopTrue, st1)
    | .ok (.stop (some reason) st1) => .ok (.raiseExc reason, st1)
    | .ok (.stop none st1) => .ok (.loopFalse, st1)
    | .ok (.reply _ _) => .error (.typeError "handle_cast did not return a valid value")
    | .ok .invalid => .error (.typeError "handle_cast did not return a valid value")

/-- _handle_info: a missing handler keeps the state and loops. -/
def dispatchInfo {St : Type} (m : GSModule St) (payload : Value) (st : St) :
    Except PyExc (Continuation × St) :=
  match m.handleInfo with
  | none => .ok (.loopTrue, st)
  | some h =>
    match h payload st with
    | .error e => .error e
    | .ok (.noReply st1) => .ok (.loopTrue, st1)
    | .ok (.stop (some reason) st1) => .ok (.raiseExc reason, st1)
    | .ok (.stop none st1) => .ok (.loopFalse, st1)
    | .ok (.reply _ _) => .error (.typeError "handle_info did not return a valid value")
    | .ok .invalid => .error (.typeError "handle_info did not return a valid value")

/-- The match on the message shape inside the while loop. -/
def dispatchMsg {St : Type} (m : GSModule St) (msg : Message) (st : St) :
    Except PyExc (Continuation × St) :=
  match msg with
  | .call payload => dispatchCall m payload st
  | .cast payload => dispatchCast m payload st
  | .info v => dispatchInfo m v st

/-- How one run of the while loop of _loop ended: the loop ended via
Stop(None); an exception escaped (with the value of the local state at that
point, the handler update having happened before the continuation is
interpreted); or the mailbox ran out of modelled messages while the loop
still wanted more (the receive would block). -/
inductive LoopStep (St : Type)
  | stopped (st : St)
  | raisedAt (e : PyExc) (st : St)
  | blocked (st : St)

/-- The while loop of _loop over the modelled message sequence.  When a
handler raises, the tuple assignment never happens and the local state keeps
its previous value. -/
def processLoop {St : Type} (m : GSModule St) : List Message → St → LoopStep St
  | [], st => .blocked st
  | msg :: rest, st =>
    match dispatchMsg m msg st with
    | .error e => .raisedAt e st
    | .ok (cont, st1) =>
      match cont with
      | .loopTrue => processLoop m rest st1
      | .loopFalse => .stopped st1
      | .raiseExc e => .raisedAt e st1

/-- How the whole _loop call ended. -/
inductive LoopExit
  | normal
  | raised (e : PyExc)
  | blocked
  deriving DecidableEq

/-- The observable result of _loop: how it exited, and the arguments of each
_terminate invocation (reason, state).  The user terminate callback runs on
each such invocation iff the module defines one. -/
structure LoopRun (St : Type) where
  result : LoopExit
  terminateCalls : List (Option PyExc × St)

/-- _loop: run init inside the try block.  When init raises an Exception, the
except clause evaluates the arguments of _terminate; the local variable state
was never assigned, so Python raises UnboundLocalError there, which replaces
the original error and propagates with no _terminate call.  When init raises
a BaseException that is not an Exception (trio.Cancelled), the except clause
does not match and the exception propagates directly.  When the loop body
raises an Exception, state is bound, so _terminate(err, state) runs and err
is reraised; a non-Exception from the body propagates without _terminate.
When the loop ends normally, _terminate(None, state) runs. -/
def runLoop {St : Type} (m : GSModule St) (msgs : List Message) : LoopRun St :=
  match m.init with
  | .error err =>
    if isExceptionClass err then
      { result := .raised (.unboundLocalError "state"), terminateCalls := [] }
    else
      { result := .raised err, terminateCalls := [] }
  | .ok st0 =>
    match processLoop m msgs st0 with
    | .stopped stF => { result := .normal, terminateCalls := [(none, stF)] }
    | .raisedAt err stF =>
      if isExceptionClass err then
        { result := .raised err, terminateCalls := [(some err, stF)] }
      else
        { result := .raised err, terminateCalls := [] }
    | .blocked _ => { result := .blocked, terminateCalls := [] }

/-- What _handle_call sends on the private reply channel of the caller:
Reply sends its payload, Stop sends a GenServerExited instance, NoReply and
the invalid shape send nothing (the invalid shape raises TypeError before
any send). -/
def handleCallSend {St : Type} : CallbackReturn St → Option Value
  | .reply p _ => some p
  | .noReply _ => none
  | .stop _ _ => some (.exc .genServerExited)
  | .invalid => none

/-- The exception carried by a value; only used on values that are exception
instances (the data case is never reached by callResolve). -/
def valueExc : Value → PyExc
  | .exc e => e
  | .data n => .userError n

/-- Result of gen_server.call for the caller. -/
inductive CallResolution
  | returns (v : Value)
  | raises (e : PyExc)
  | blocks
  deriving DecidableEq

/-- The caller side of gen_server.call, given what the callee sent on the
private channel (none when nothing was sent before the deadline) and whether
a timeout was supplied.  A received value that is an Exception instance is
raised, any other value is returned; with no value, trio.fail_after raises
trio.TooSlowError when a timeout was set, and the receive blocks otherwise. -/
def callResolve (sent : Option Value) (timeoutSet : Bool) : CallResolution :=
  match sent with
  | some val => if isinstanceException val then .raises (valueExc val) else .returns val
  | none => if timeoutSet then .raises .tooSlowError else .blocks

/-! ### Predicates and concrete instances used by the theorems -/

/-- A dict invariant: the keys of the association list are pairwise distinct
(true of any Python dict). -/
def KeysNodup {α : Type} (l : List (String × α)) : Prop :=
  (l.map Prod.fst).Nodup

/-- Number of bindings of a key in an association list. -/
def countKey {α : Type} (l : List (String × α)) (n : String) : Nat :=
  (l.filter (fun p => decide (p.1 = n))).length

/-- Registry invariant: every registered name maps to a live mailbox id. -/
def NoDangling (env : MailboxEnv) : Prop :=
  ∀ p ∈ env.names, (lookupA env.mailboxes p.2).isSome = true

/-- Invariant of the excs_by_repr dict while every collected exception is a
trio.Cancelled instance: Cancelled instances all share the repr string, so
the dict never holds more than one entry. -/
def InvAcc (acc : List (String × PyExc)) : Prop :=
  acc.length ≤ 1 ∧ ∀ p ∈ acc, p.1 = "Cancelled()" ∧ isCancelled p.2 = true

/-- A registry with one mailbox m1 registered under the name a. -/
def envA : MailboxEnv :=
  { mailboxes := [("m1", 0)], names := [("a", "m1")] }

/-- A registry with two mailboxes; m1 carries the names a and c, m2 carries
the name b. -/
def envB : MailboxEnv :=
  { mailboxes := [("m1", 0), ("m2", 1)],
    names := [("a", "m1"), ("b", "m2"), ("c", "m1")] }

/-- A generic-server module whose init callback raises RuntimeError. -/
def initFailModule : GSModule Nat :=
  { init := .error (.runtimeError "boom"), handleCall := none,
    handleCast := none, handleInfo := none, hasTerminate := true }

/-- A nested aggregate whose leaves are all cancellations. -/
def rootAllCancelled : List ExcTree :=
  [.leaf (.cancelled 0), .group [.leaf (.cancelled 1), .leaf (.cancelled 2)]]

/-! ### Association-list lemmas -/

theorem lookupA_insertA {α : Type} (l : List (String × α)) (k k' : String) (v : α) :
    lookupA (insertA l k v) k' = if k' = k then some v else lookupA l k' := by
  induction l with
  | nil =>
    by_cases h : k' = k
    · subst h; simp [insertA, lookupA]
    · simp [insertA, lookupA, h, Ne.symm h]
  | cons p ps ih =>
    by_cases hp : p.1 = k <;> by_cases h : k' = k
    · subst h; simp [insertA, lookupA, hp]
    · simp [insertA, lookupA, hp, h, Ne.symm h]
    · subst h; simp [insertA, lookupA, hp, ih]
    · simp [insertA, lookupA, hp, h, ih]

theorem mem_insertA {α : Type} (l : List (String × α)) (k : String) (v : α)
    (p : String × α) (hp : p ∈ insertA l k v) : p ∈ l ∨ p = (k, v) := by
  induction l with
  | nil => simp [insertA] at hp; simp [hp]
  | cons q qs ih =>
    simp only [insertA] at hp
    by_cases hq : q.1 = k
    · simp only [hq, if_true, List.mem_cons] at hp
      rcases hp with hp | hp
      · right; exact hp
      · left; exact List.mem_cons_of_mem _ hp
    · simp only [hq, if_false, List.mem_cons] at hp
      rcases hp with hp | hp
      · left; simp [hp]
      · rcases ih hp with h | h
        · left; exact List.mem_cons_of_mem _ h
        · right; exact h

theorem mem_keys_insertA {α : Type} (l : List (String × α)) (k : String) (v : α)
    (a : String) (ha : a ∈ (insertA l k v).map Prod.fst) :
    a ∈ l.map Prod.fst ∨ a = k := by
  simp only [List.mem_map] at ha
  obtain ⟨p, hp, rfl⟩ := ha
  rcases mem_insertA l k v p hp with h | h
  · left; exact List.mem_map_of_mem _ h
  · right; simp [h]

theorem nodup_insertA {α : Type} (l : List (String × α)) (k : String) (v : α)
    (h : KeysNodup l) : KeysNodup (insertA l k v) := by
  induction l with
  | nil => simp [insertA, KeysNodup]
  | cons p ps ih =>
    simp only [KeysNodup, List.map_cons, List.nodup_cons] at h
    obtain ⟨hni, hnd⟩ := h
    simp only [insertA]
    by_cases hp : p.1 = k
    · rw [if_pos hp]
      simp only [KeysNodup, List.map_cons, List.nodup_cons]
      exact ⟨by rw [← hp]; exact hni, hnd⟩
    · have ih2 := ih hnd
      rw [if_neg hp]
      simp only [KeysNodup, List.map_cons, List.nodup_cons]
      refine ⟨fun hmem => ?_, ih2⟩
      rcases mem_keys_insertA ps k v p.1 hmem with h2 | h2
      · exact hni h2
      · exact hp h2

theorem eraseA_sublist {α : Type} (l : List (String × α)) (k : String) :
    List.Sublist (eraseA l k) l := by
  induction l with
  | nil => exact List.Sublist.refl []
  | cons p ps ih =>
    simp only [eraseA]
    by_cases hp : p.1 = k
    · simp only [hp, if_true]
      exact (List.Sublist.refl ps).cons p
    · simp only [hp, if_false]
      exact ih.cons₂ p

theorem lookupA_eraseA_ne {α : Type} (l : List (String × α)) (k k' : String)
    (h : k' ≠ k) : lookupA (eraseA l k) k' = lookupA l k' := by
  induction l with
  | nil => rfl
  | cons p ps ih =>
    simp only [eraseA]
    by_cases hp : p.1 = k
    · simp only [hp, if_true, lookupA]
      rw [if_neg (fun hh : k = k' => h hh.symm)]
    · simp only [hp, if_false, lookupA, ih]

theorem countKey_eq_zero_of_not_mem {α : Type} (l : List (String × α)) (n : String)
    (h : n ∉ l.map Prod.fst) : countKey l n = 0 := by
  induction l with
  | nil => rfl
  | cons p ps ih =>
    simp only [List.map_cons, List.mem_cons] at h
    push_neg at h
    have h1 : ¬ p.1 = n := fun hh => h.1 hh.symm
    simp only [countKey, List.filter_cons, h1]
    simp only [decide_eq_true_eq, h1, if_false]
    exact ih h.2

theorem nodup_countKey_le_one {α : Type} (l : List (String × α)) (n : String)
    (h : KeysNodup l) : countKey l n ≤ 1 := by
  induction l with
  | nil => simp [countKey]
  | cons p ps ih =>
    simp only [KeysNodup, List.map_cons, List.nodup_cons] at h
    obtain ⟨hni, hnd⟩ := h
    by_cases hp : p.1 = n
    · have hz : countKey ps n = 0 :=
        countKey_eq_zero_of_not_mem ps n (by rw [← hp]; exact hni)
      have hc : countKey (p :: ps) n = 1 + countKey ps n := by
        simp only [countKey, List.filter_cons, decide_eq_true_eq, hp, if_true]
        simp [Nat.add_comm]
      omega
    · have hc : countKey (p :: ps) n = countKey ps n := by
        simp only [countKey, List.filter_cons, decide_eq_true_eq, hp, if_false]
      have := ih hnd
      omega

theorem nodup_filter_keys {α : Type} (l : List (String × α)) (f : String × α → Bool)
    (h : KeysNodup l) : KeysNodup (l.filter f) :=
  List.Nodup.sublist ((List.filter_sublist l).map Prod.fst) h

theorem nodup_eraseA {α : Type} (l : List (String × α)) (k : String)
    (h : KeysNodup l) : KeysNodup (eraseA l k) :=
  List.Nodup.sublist ((eraseA_sublist l k).map Prod.fst) h

/-! ### Supervisor claims -/

/-- C1: whenever the per-child restart decision reaches the intensity budget
(permanent strategy, or transient strategy with a failed outcome), the budget
is computed as the spec states: the current timestamp is appended to the
failure deque; if the deque length is then at most max_restarts, restart is
allowed and the deque keeps the appended timestamp; otherwise the oldest
timestamp is popped and restart is allowed iff now - oldest is at least
max_seconds. -/
theorem C1_intensity_budget (s : RetryState) (outcome : Outcome) (now : ℚ)
    (h : s.restart = .permanent ∨ (s.restart = .transient ∧ outcome.failed = true)) :
    ((s.failure_times ++ [now]).length ≤ s.max_restarts →
      retryCall s outcome now =
        (true, { s with failure_times := s.failure_times ++ [now] })) ∧
    (∀ oldest rest, s.failure_times ++ [now] = oldest :: rest →
      s.max_restarts < (s.failure_times ++ [now]).length →
      retryCall s outcome now =
        (decide (now - oldest ≥ s.max_seconds), { s with failure_times := rest })) := by
  have hb : retryCall s outcome now = budgetStep s now := by
    rcases h with h | ⟨h1, h2⟩
    · simp [retryCall, h]
    · simp [retryCall, h1, h2]
  constructor
  · intro hlen
    rw [hb]
    simp only [budgetStep]
    rw [if_pos hlen]
  · intro oldest rest heq hlen
    rw [hb]
    simp only [budgetStep]
    rw [if_neg (Nat.not_le.mpr hlen), heq]

/-- Witness for C1 at a concrete decision: permanent strategy, empty deque,
budget 3, so a restart at time 2 is allowed and recorded. -/
theorem C1_intensity_budget_witness :
    retryCall ⟨.permanent, 3, 5, []⟩ .ok 2 = (true, ⟨.permanent, 3, 5, [2]⟩) :=
  (C1_intensity_budget ⟨.permanent, 3, 5, []⟩ .ok 2 (Or.inl rfl)).1 (by decide)

/-- C2 counterexample: a child whose outcome is a trio.Cancelled exception is
treated as a failed outcome, and with budget available the restart decision
returns True (restart) under the permanent strategy as well as under the
transient strategy, contradicting the claim that the decision returns
do-not-restart on cancellation. -/
theorem C2_counterexample :
    (retryCall ⟨.permanent, 3, 5, []⟩ (.raised (.cancelled 0)) 0).1 = true ∧
    (retryCall ⟨.transient, 3, 5, []⟩ (.raised (.cancelled 0)) 0).1 = true :=
  ⟨rfl, rfl⟩

/-- C2 (amended): for a cancellation outcome, only the temporary strategy
makes the restart decision return do-not-restart; under the permanent and the
transient strategy a cancellation counts as a failed outcome and the decision
is whatever the intensity budget allows, so the decision function itself
never refuses a restart merely because the outcome was a cancellation. -/
theorem C2_cancelled_outcome (s : RetryState) (e : PyExc) (now : ℚ)
    (hc : isCancelled e = true) :
    (s.restart = .temporary → retryCall s (.raised e) now = (false, s)) ∧
    (s.restart = .permanent ∨ s.restart = .transient →
      retryCall s (.raised e) now = budgetStep s now) := by
  refine ⟨fun h => by simp [retryCall, h], fun h => ?_⟩
  rcases h with h | h <;> simp [retryCall, h, Outcome.failed]

/-- Witness for C2 (amended) at a concrete temporary-strategy decision. -/
theorem C2_cancelled_outcome_witness :
    retryCall ⟨.temporary, 3, 5, []⟩ (.raised (.cancelled 0)) 0 =
      (false, ⟨.temporary, 3, 5, []⟩) :=
  (C2_cancelled_outcome ⟨.temporary, 3, 5, []⟩ (.cancelled 0) 0 rfl).1 rfl

/-! ### Generic-server claims -/

/-- C4 counterexample: when the deadline of gen_server.call expires with no
reply, the caller raises trio.TooSlowError, which is not an instance of the
builtin TimeoutError class the claim names. -/
theorem C4_counterexample :
    callResolve none true = .raises .tooSlowError ∧
    isTimeoutErrorClass .tooSlowError = false :=
  ⟨rfl, rfl⟩

/-- C4 (amended): gen_server.call resolves in exactly one of four ways: it
returns the Reply payload when handle_call replies with a non-exception
value; it raises GenServerExited when the callee returns Stop before
replying; it raises trio.TooSlowError (not the builtin TimeoutError) when
the optional deadline expires without a reply; and it raises the exception
itself when the Reply payload is an exception value. -/
theorem C4_call_resolution {St : Type} (cb : CallbackReturn St) (timeoutSet : Bool) :
    (∀ p st1, cb = .reply p st1 → isinstanceException p = false →
      callResolve (handleCallSend cb) timeoutSet = .returns p) ∧
    (∀ r st1, cb = .stop r st1 →
      callResolve (handleCallSend cb) timeoutSet = .raises .genServerExited) ∧
    (∀ st1, cb = .noReply st1 → timeoutSet = true →
      callResolve (handleCallSend cb) timeoutSet = .raises .tooSlowError) ∧
    (∀ e st1, cb = .reply (.exc e) st1 → isExceptionClass e = true →
      callResolve (handleCallSend cb) timeoutSet = .raises e) := by
  refine ⟨?_, ?_, ?_, ?_⟩
  · intro p st1 hcb hp
    subst hcb
    simp [handleCallSend, callResolve, hp]
  · intro r st1 hcb
    subst hcb
    simp [handleCallSend, callResolve, isinstanceException, isExceptionClass, valueExc]
  · intro st1 hcb ht
    subst hcb
    simp [handleCallSend, callResolve, ht]
  · intro e st1 hcb he
    subst hcb
    simp [handleCallSend, callResolve, isinstanceException, he, valueExc]

/-- Witness for C4 (amended): a non-exception reply payload is returned to
the caller. -/
theorem C4_call_resolution_witness :
    callResolve (handleCallSend (CallbackReturn.reply (Value.data 5) (0 : Nat))) true =
      .returns (.data 5) :=
  (C4_call_resolution (CallbackReturn.reply (Value.data 5) (0 : Nat)) true).1
    (.data 5) 0 rfl rfl

/-- C5: when the init callback raises an Exception, the except clause of the
loop references the local variable state, which was never assigned; Python
therefore raises UnboundLocalError there, so _terminate (and hence the user
terminate callback) is never invoked and the error that propagates is the
UnboundLocalError, not the original init error, contrary to the claim. -/
theorem C5_init_failure :
    (runLoop initFailModule []).result = .raised (.unboundLocalError "state") ∧
    (runLoop initFailModule []).terminateCalls = [] ∧
    LoopExit.raised (.unboundLocalError "state") ≠
      LoopExit.raised (.runtimeError "boom") :=
  ⟨rfl, rfl, by decide⟩

/-! ### Mailbox claims -/

/-- C6 counterexample: receive on a live mailbox with a timeout and no
on_timeout callback raises trio.TooSlowError on expiry, which is not an
instance of the builtin TimeoutError class named by the claim. -/
theorem C6_counterexample :
    receiveM envA "m1" (some 1) none .expired = .raises .tooSlowError ∧
    isTimeoutErrorClass .tooSlowError = false :=
  ⟨rfl, rfl⟩

/-- C6 (amended): with a timeout set, a message arriving within it is
returned; on expiry the value of on_timeout is returned when provided and
otherwise receive fails with trio.TooSlowError (not the builtin
TimeoutError); and receive on a mailbox id absent from the registry fails
with MailboxDoesNotExist. -/
theorem C6_receive (env : MailboxEnv) (mid : String) (t : ℚ) (v r : Value)
    (hmid : (lookupA env.mailboxes mid).isSome = true) :
    (∀ onT, receiveM env mid (some t) onT (.delivered v) = .returns v) ∧
    receiveM env mid (some t) none .expired = .raises .tooSlowError ∧
    receiveM env mid (some t) (some r) .expired = .returns r ∧
    (∀ env2 mid2, lookupA env2.mailboxes mid2 = none → ∀ t2 o2 e2,
      receiveM env2 mid2 t2 o2 e2 = .raises (.mailboxDoesNotExist mid2)) := by
  obtain ⟨c, hc⟩ := Option.isSome_iff_exists.mp hmid
  refine ⟨?_, ?_, ?_, ?_⟩
  · intro onT
    simp [receiveM, hc]
  · simp [receiveM, hc]
  · simp [receiveM, hc]
  · intro env2 mid2 h2 t2 o2 e2
    simp [receiveM, h2]

/-- Witness for C6 (amended) at a concrete expiry with no on_timeout. -/
theorem C6_receive_witness :
    receiveM envA "m1" (some 1) none .expired = .raises .tooSlowError :=
  (C6_receive envA "m1" 1 (.data 0) (.data 0) (by decide)).2.1

/-- C7 counterexample: when the name is already taken but the given mailbox
id is unknown, register fails with MailboxDoesNotExist, not with the
NameAlreadyExist the claim promises (the mailbox check precedes the name
check). -/
theorem C7_counterexample :
    (lookupA envA.names "a").isSome = true ∧
    register envA "m2" "a" = (some (.mailboxDoesNotExist "m2"), envA) ∧
    some (PyExc.mailboxDoesNotExist "m2") ≠ some (PyExc.nameAlreadyExist "a") :=
  ⟨rfl, rfl, by decide⟩

/-- C7 (amended): names are unique — with distinct dict keys every name has
at most one binding, and every registry operation preserves distinctness of
the name keys; register on a taken name fails leaving both registries
unchanged, with NameAlreadyExist when the mailbox id is registered and with
MailboxDoesNotExist when it is not. -/
theorem C7_name_uniqueness (env : MailboxEnv) (h : KeysNodup env.names) :
    (∀ n, countKey env.names n ≤ 1) ∧
    (∀ mid, KeysNodup (create env mid).names) ∧
    (∀ mid name, KeysNodup (register env mid name).2.names) ∧
    (∀ name, KeysNodup (unregister env name).2.names) ∧
    (∀ mid, KeysNodup (unregister_all env mid).names) ∧
    (∀ mid, KeysNodup (destroy env mid).2.names) ∧
    (∀ mid name, (lookupA env.names name).isSome = true →
      (register env mid name).2 = env ∧
      ((lookupA env.mailboxes mid).isSome = true →
        (register env mid name).1 = some (.nameAlreadyExist name)) ∧
      (lookupA env.mailboxes mid = none →
        (register env mid name).1 = some (.mailboxDoesNotExist mid))) := by
  refine ⟨fun n => nodup_countKey_le_one _ n h, fun mid => h, ?_, ?_, ?_, ?_, ?_⟩
  · intro mid name
    simp only [register]
    match hm : lookupA env.mailboxes mid with
    | none => exact h
    | some c =>
      match hn : lookupA env.names name with
      | some _ => exact h
      | none => exact nodup_insertA _ _ _ h
  · intro name
    simp only [unregister]
    match hn : lookupA env.names name with
    | none => exact h
    | some _ => exact nodup_eraseA _ _ h
  · intro mid
    exact nodup_filter_keys _ _ h
  · intro mid
    simp only [destroy]
    match hm : lookupA env.mailboxes mid with
    | none => exact h
    | some _ => exact nodup_filter_keys _ _ h
  · intro mid name hname
    obtain ⟨m2, hn⟩ := Option.isSome_iff_exists.mp hname
    refine ⟨?_, ?_, ?_⟩
    · simp only [register]
      match hm : lookupA env.mailboxes mid with
      | none => rfl
      | some _ => rw [hn]
    · intro hmid
      obtain ⟨c, hm⟩ := Option.isSome_iff_exists.mp hmid
      simp [register, hm, hn]
    · intro hmid
      simp [register, hmid]

/-- Witness for C7 (amended): registering the taken name a on the live
mailbox m1 fails with NameAlreadyExist. -/
theorem C7_name_uniqueness_witness :
    (register envA "m1" "a").1 = some (.nameAlreadyExist "a") :=
  ((C7_name_uniqueness envA (by unfold KeysNodup; decide)).2.2.2.2.2.2 "m1" "a"
    (by decide)).2.1 (by decide)

/-- C8: destroying a registered mailbox removes exactly the names mapped to
its id from the name registry (names of other mailboxes survive) and removes
the mailbox entry itself, the names being unregistered before the mailbox
entry is popped, as the sequencing in destroy shows. -/
theorem C8_destroy_names (env : MailboxEnv) (mid : String)
    (h : (lookupA env.mailboxes mid).isSome = true) :
    destroy env mid =
      (none, { mailboxes := eraseA env.mailboxes mid,
               names := env.names.filter (fun p => decide (¬ p.2 = mid)) }) ∧
    (∀ p ∈ env.names, p.2 ≠ mid → p ∈ (destroy env mid).2.names) ∧
    (∀ p ∈ (destroy env mid).2.names, p ∈ env.names ∧ p.2 ≠ mid) := by
  obtain ⟨c, hc⟩ := Option.isSome_iff_exists.mp h
  have hd : destroy env mid =
      (none, { mailboxes := eraseA env.mailboxes mid,
               names := env.names.filter (fun p => decide (¬ p.2 = mid)) }) := by
    simp [destroy, hc, unregister_all]
  refine ⟨hd, ?_, ?_⟩
  · intro p hp hne
    rw [hd]
    simp [List.mem_filter, hp, hne]
  · intro p hp
    rw [hd] at hp
    simp only [List.mem_filter, decide_eq_true_eq] at hp
    exact ⟨hp.1, hp.2⟩

/-- Witness for C8 at a concrete registry: destroying m1 drops the names a
and c but keeps b, and pops the m1 entry. -/
theorem C8_destroy_names_witness :
    destroy envB "m1" =
      (none, { mailboxes := [("m2", 1)], names := [("b", "m2")] }) :=
  (C8_destroy_names envB "m1" (by decide)).1

/-- C9: register with a mailbox id absent from the mailbox registry raises
MailboxDoesNotExist and returns the registries unchanged, whatever the name
argument is — in particular even when the name is already taken, because the
mailbox check precedes the name check. -/
theorem C9_register_unknown_mid (env : MailboxEnv) (mid name : String)
    (h : lookupA env.mailboxes mid = none) :
    register env mid name = (some (.mailboxDoesNotExist mid), env) := by
  simp [register, h]

/-- Witness for C9: an unknown mailbox id produces MailboxDoesNotExist even
though the name a is already taken. -/
theorem C9_register_unknown_mid_witness :
    register envA "m9" "a" = (some (.mailboxDoesNotExist "m9"), envA) :=
  C9_register_unknown_mid envA "m9" "a" (by decide)

/-- C10: every registry operation preserves the no-dangling-name invariant:
if every registered name maps to a live mailbox id, the same holds after
create, destroy, register, unregister and unregister_all, whether they
raise or not. -/
theorem C10_no_dangling (env : MailboxEnv) (h : NoDangling env) :
    (∀ mid, NoDangling (create env mid)) ∧
    (∀ mid, NoDangling (destroy env mid).2) ∧
    (∀ mid name, NoDangling (register env mid name).2) ∧
    (∀ name, NoDangling (unregister env name).2) ∧
    (∀ mid, NoDangling (unregister_all env mid)) := by
  refine ⟨?_, ?_, ?_, ?_, ?_⟩
  · intro mid p hp
    simp only [create] at hp ⊢
    rw [lookupA_insertA]
    by_cases hx : p.2 = mid
    · simp [hx]
    · rw [if_neg hx]
      exact h p hp
  · intro mid p hp
    simp only [destroy] at hp ⊢
    match hm : lookupA env.mailboxes mid with
    | none =>
      rw [hm] at hp
      exact h p hp
    | some c =>
      rw [hm] at hp
      simp only [unregister_all, List.mem_filter, decide_eq_true_eq] at hp
      obtain ⟨hmem, hne⟩ := hp
      rw [lookupA_eraseA_ne _ _ _ hne]
      exact h p hmem
  · intro mid name p hp
    simp only [register] at hp ⊢
    match hm : lookupA env.mailboxes mid with
    | none =>
      rw [hm] at hp
      exact h p hp
    | some c =>
      rw [hm] at hp
      match hn : lookupA env.names name with
      | some _ =>
        rw [hn] at hp
        exact h p hp
      | none =>
        rw [hn] at hp
        simp only at hp
        rcases mem_insertA _ _ _ p hp with hmem | hmem
        · exact h p hmem
        · subst hmem
          simp [hm]
  · intro name p hp
    simp only [unregister] at hp ⊢
    match hn : lookupA env.names name with
    | none =>
      rw [hn] at hp
      exact h p hp
    | some _ =>
      rw [hn] at hp
      simp only at hp
      exact h p ((eraseA_sublist env.names name).subset hp)
  · intro mid p hp
    simp only [unregister_all, List.mem_filter] at hp
    exact h p hp.1

/-- Witness for C10 at a concrete registry and a create operation. -/
theorem C10_no_dangling_witness : NoDangling (create envA "m2") :=
  (C10_no_dangling envA (by unfold NoDangling; decide)).1 "m2"

/-! ### defer_to_cancelled traversal lemmas -/

theorem leavesStack_nil_cons (stack : List (List ExcTree)) :
    leavesStack ([] :: stack) = leavesStack stack := by
  simp [leavesStack, leavesList]

theorem leavesStack_leaf_cons (e : PyExc) (rest : List ExcTree)
    (stack : List (List ExcTree)) :
    leavesStack ((.leaf e :: rest) :: stack) = e :: leavesStack (rest :: stack) := by
  simp [leavesStack, leavesList, leavesT]

theorem mem_leavesStack_group (cs rest : List ExcTree)
    (stack : List (List ExcTree)) (x : PyExc) :
    x ∈ leavesStack ((.group cs :: rest) :: stack) ↔
      x ∈ leavesStack (rest :: cs :: stack) := by
  simp only [leavesStack, leavesList, leavesT, List.mem_append]
  tauto

theorem leavesStack_singleton (l : List ExcTree) :
    leavesStack [l] = leavesList l := by
  simp [leavesStack]

theorem reprExc_cancelled (e : PyExc) (hc : isCancelled e = true) :
    reprExc e = "Cancelled()" := by
  cases e <;> simp_all [isCancelled, reprExc]

theorem insertA_cancelled_inv (acc : List (String × PyExc)) (e : PyExc)
    (hc : isCancelled e = true) (h : InvAcc acc) :
    InvAcc (insertA acc (reprExc e) e) ∧ insertA acc (reprExc e) e ≠ [] := by
  rw [reprExc_cancelled e hc]
  match acc, h with
  | [], _ =>
    refine ⟨⟨by simp [insertA], ?_⟩, by simp [insertA]⟩
    intro p hp
    simp only [insertA, List.mem_singleton] at hp
    simp [hp, hc]
  | [p], ⟨hlen, hmem⟩ =>
    have hp := hmem p (List.mem_singleton_self p)
    have hrw : insertA [p] "Cancelled()" e = [("Cancelled()", e)] := by
      simp [insertA, hp.1]
    rw [hrw]
    refine ⟨⟨by simp, ?_⟩, by simp⟩
    intro q hq
    simp only [List.mem_singleton] at hq
    simp [hq, hc]
  | p :: q :: rest, ⟨hlen, _⟩ => simp at hlen

theorem collectCancelled_error (stack : List (List ExcTree))
    (acc : List (String × PyExc)) :
    (∃ e ∈ leavesStack stack, isCancelled e = false) →
    collectCancelled stack acc = .error () := by
  induction stack, acc using collectCancelled.induct with
  | case1 acc =>
    intro h
    simp [leavesStack] at h
  | case2 stack acc ih =>
    intro h
    simp only [collectCancelled]
    exact ih (by rwa [leavesStack_nil_cons] at h)
  | case3 e rest stack acc hcanc ih =>
    intro h
    simp only [collectCancelled]
    rw [if_pos hcanc]
    apply ih
    rw [leavesStack_leaf_cons] at h
    obtain ⟨x, hx, hxc⟩ := h
    rcases List.mem_cons.mp hx with rfl | hx2
    · rw [hcanc] at hxc
      cases hxc
    · exact ⟨x, hx2, hxc⟩
  | case4 e rest stack acc hcanc =>
    intro h
    simp only [collectCancelled]
    rw [if_neg hcanc]
  | case5 cs rest stack acc ih =>
    intro h
    simp only [collectCancelled]
    apply ih
    obtain ⟨x, hx, hxc⟩ := h
    exact ⟨x, (mem_leavesStack_group cs rest stack x).mp hx, hxc⟩

theorem collectCancelled_ok (stack : List (List ExcTree))
    (acc : List (String × PyExc)) :
    (∀ e ∈ leavesStack stack, isCancelled e = true) → InvAcc acc →
    ∃ acc2, collectCancelled stack acc = .ok acc2 ∧ InvAcc acc2 ∧
      (acc2 = [] → acc = [] ∧ leavesStack stack = []) := by
  induction stack, acc using collectCancelled.induct with
  | case1 acc =>
    intro _ hinv
    exact ⟨acc, by simp [collectCancelled], hinv, fun hz => ⟨hz, rfl⟩⟩
  | case2 stack acc ih =>
    intro hall hinv
    have hall2 : ∀ e ∈ leavesStack stack, isCancelled e = true := by
      intro e he
      exact hall e (by rwa [leavesStack_nil_cons])
    obtain ⟨acc2, h1, h2, h3⟩ := ih hall2 hinv
    refine ⟨acc2, by simp only [collectCancelled]; exact h1, h2, ?_⟩
    intro hz
    obtain ⟨ha, hl⟩ := h3 hz
    exact ⟨ha, by rw [leavesStack_nil_cons]; exact hl⟩
  | case3 e rest stack acc hcanc ih =>
    intro hall hinv
    have hall2 : ∀ x ∈ leavesStack (rest :: stack), isCancelled x = true := by
      intro x hx
      exact hall x (by rw [leavesStack_leaf_cons]; exact List.mem_cons_of_mem _ hx)
    obtain ⟨hinv2, hne⟩ := insertA_cancelled_inv acc e hcanc hinv
    obtain ⟨acc2, h1, h2, h3⟩ := ih hall2 hinv2
    refine ⟨acc2, ?_, h2, ?_⟩
    · simp only [collectCancelled]
      rw [if_pos hcanc]
      exact h1
    · intro hz
      exact absurd (h3 hz).1 hne
  | case4 e rest stack acc hcanc =>
    intro hall _
    have : isCancelled e = true :=
      hall e (by rw [leavesStack_leaf_cons]; exact List.mem_cons_self e _)
    rw [this] at hcanc
    cases hcanc rfl
  | case5 cs rest stack acc ih =>
    intro hall hinv
    have hall2 : ∀ x ∈ leavesStack (rest :: cs :: stack), isCancelled x = true := by
      intro x hx
      exact hall x ((mem_leavesStack_group cs rest stack x).mpr hx)
    obtain ⟨acc2, h1, h2, h3⟩ := ih hall2 hinv
    refine ⟨acc2, by simp only [collectCancelled]; exact h1, h2, ?_⟩
    intro hz
    obtain ⟨ha, hl⟩ := h3 hz
    refine ⟨ha, ?_⟩
    have : ∀ x, x ∉ leavesStack ((ExcTree.group cs :: rest) :: stack) := by
      intro x hx
      have hx2 := (mem_leavesStack_group cs rest stack x).mp hx
      rw [hl] at hx2
      cases hx2
    exact List.eq_nil_iff_forall_not_mem.mpr this

/-- C3: for every aggregated exception group caught by defer_to_cancelled
(modelled by the component list of the root group, with at least one leaf as
Python exception groups are nonempty): if every leaf is a cancellation,
exactly one cancellation exception is reraised; if any leaf is a
non-cancellation exception, the original root aggregate propagates intact. -/
theorem C3_defer_law (root : List ExcTree) (hne : leavesList root ≠ []) :
    ((∀ e ∈ leavesList root, isCancelled e = true) →
      ∃ e, deferToCancelled root = .raiseOne e ∧ isCancelled e = true) ∧
    ((∃ e ∈ leavesList root, isCancelled e = false) →
      deferToCancelled root = .propagateRoot) := by
  constructor
  · intro hall
    have hs : ∀ e ∈ leavesStack [root], isCancelled e = true := by
      intro e he
      rw [leavesStack_singleton] at he
      exact hall e he
    obtain ⟨acc2, hok, hinv2, hnil⟩ :=
      collectCancelled_ok [root] [] hs ⟨by simp, by simp⟩
    have hacc2 : acc2 ≠ [] := by
      intro hz
      obtain ⟨-, hl⟩ := hnil hz
      rw [leavesStack_singleton] at hl
      exact hne hl
    obtain ⟨hlen, hmem⟩ := hinv2
    rcases acc2 with - | ⟨p, rest2⟩
    · exact absurd rfl hacc2
    · rcases rest2 with - | ⟨q, rest3⟩
      · have hp := hmem p (List.mem_singleton_self p)
        refine ⟨p.2, ?_, hp.2⟩
        simp only [deferToCancelled]
        rw [hok]
        simp [hp.2]
      · simp at hlen
  · intro hex
    have herr : collectCancelled [root] [] = .error () := by
      apply collectCancelled_error
      obtain ⟨e, he, hec⟩ := hex
      exact ⟨e, by rw [leavesStack_singleton]; exact he, hec⟩
    simp [deferToCancelled, herr]

/-- Witness for C3 at a concrete nested aggregate whose leaves are all
cancellations. -/
theorem C3_defer_law_witness :
    ∃ e, deferToCancelled rootAllCancelled = .raiseOne e ∧ isCancelled e = true :=
  (C3_defer_law rootAllCancelled
    (by simp [rootAllCancelled, leavesList, leavesT])).1
    (by simp [rootAllCancelled, leavesList, leavesT, isCancelled])

end Triotp
